import Mathlib

/-!
Verification of the unique-name generation, validation and create-with-retry
logic of `src/utilities/endpoint_naming.py` (purchase-predictor).

Python strings are modelled as `List Char`; the functions below are direct
translations of the Python source.  Effectful retry loops are modelled by
explicit environments (`CloudEnv`) recording the behaviour of the cloud
client, and runs produce an event trace.
-/

/-- Python `s.lower()` restricted to the ASCII range (the inputs of interest). -/
def pyLower (s : List Char) : List Char := s.map Char.toLower

/-- Python `s.replace(a, b)` for single characters `a`, `b`. -/
def pyReplaceChar (s : List Char) (a b : Char) : List Char :=
  s.map (fun c => if c = a then b else c)

/-- Python `pat in s` (substring containment). -/
def isSubstr (pat s : List Char) : Bool :=
  s.tails.any (fun t => pat.isPrefixOf t)

/-- A lowercase ASCII letter or a digit: the character class `[a-z0-9]`. -/
def lowerAlnum (c : Char) : Bool := c.isLower || c.isDigit

/-- The character class `[a-z0-9-]` of the validation regex. -/
def nameCharOk (c : Char) : Bool := lowerAlnum c || c == '-'

/--
`validate_azure_ml_name(name, name_type)` from `endpoint_naming.py`:
checks emptiness, length bounds, boundary characters, the character
class `[a-z0-9-]` and absence of consecutive hyphens, in that order,
returning `(False, reason)` at the first failing check.
-/
def validate_azure_ml_name (name : List Char) (name_type : List Char) :
    Bool × Option (List Char) :=
  if name.isEmpty then
    (false, some (name_type ++ (" name cannot be empty").toList))
  else if name.length < 3 then
    (false, some (name_type ++ (" name must be at least 3 characters long").toList))
  else if name.length > 32 then
    (false, some (name_type ++ (" name must be 32 characters or less").toList))
  else if !(Char.isAlphanum (name.headD ' ') && Char.isAlphanum (name.getLastD ' ')) then
    (false, some (name_type ++ (" name must start and end with alphanumeric character").toList))
  else if !(name.all nameCharOk) then
    (false, some (name_type ++ (" name can only contain lowercase letters, numbers, and hyphens").toList))
  else if isSubstr ['-', '-'] name then
    (false, some (name_type ++ (" name cannot contain consecutive hyphens").toList))
  else
    (true, none)

/--
Modelled from the spec: the naming grammar `^[a-z0-9][a-z0-9-]*[a-z0-9]$`,
length between 3 and 32, and no `--` substring.
-/
def specNameGrammar (name : List Char) : Bool :=
  decide (3 ≤ name.length) && decide (name.length ≤ 32) &&
  decide (2 ≤ name.length) &&
  lowerAlnum (name.headD ' ') && lowerAlnum (name.getLastD ' ') &&
  name.all nameCharOk &&
  !(isSubstr ['-', '-'] name)

/--
Modelled from the spec: the fixed ordered check list of the validator
(non-empty; length ≥ 3; length ≤ 32; boundary characters alphanumeric;
charset `[a-z0-9-]+`; no consecutive hyphens) with the reason of each check.
-/
def specChecks (name kind : List Char) : List (Bool × List Char) :=
  [ (!name.isEmpty, kind ++ (" name cannot be empty").toList),
    (decide (3 ≤ name.length), kind ++ (" name must be at least 3 characters long").toList),
    (decide (name.length ≤ 32), kind ++ (" name must be 32 characters or less").toList),
    (Char.isAlphanum (name.headD ' ') && Char.isAlphanum (name.getLastD ' '),
      kind ++ (" name must start and end with alphanumeric character").toList),
    (!name.isEmpty && name.all nameCharOk,
      kind ++ (" name can only contain lowercase letters, numbers, and hyphens").toList),
    (!(isSubstr ['-', '-'] name), kind ++ (" name cannot contain consecutive hyphens").toList) ]

/-- Modelled from the spec: the reason of the first failing check, if any. -/
def specFirstFailReason (name kind : List Char) : Option (List Char) :=
  (specChecks name kind).findSome? (fun p => if p.1 then none else some p.2)

/- ### Character-level lemmas -/

theorem uint32_le_iff (a b : UInt32) : a ≤ b ↔ a.toNat ≤ b.toNat := by
  rw [UInt32.le_def, BitVec.le_def]
  exact Iff.rfl

theorem toLower_eq_self (c : Char) (h : lowerAlnum c = true) : Char.toLower c = c := by
  have hd : (97 ≤ Char.toNat c ∧ Char.toNat c ≤ 122) ∨
      (48 ≤ Char.toNat c ∧ Char.toNat c ≤ 57) := by
    simp only [lowerAlnum, Char.isLower, Char.isDigit, Bool.or_eq_true, Bool.and_eq_true,
      decide_eq_true_eq, uint32_le_iff] at h
    exact h
  have hv : ¬(Char.toNat c ≥ 65 ∧ Char.toNat c ≤ 90) := by omega
  simp [Char.toLower, hv]

theorem char_ofNat_toNat (n : Nat) (h : n.isValidChar) : (Char.ofNat n).toNat = n := by
  simp [Char.ofNat, h, Char.toNat, Char.ofNatAux, UInt32.toNat, BitVec.toNat_ofNatLt]

theorem isUpper_toLower (c : Char) (h : Char.isUpper c = true) :
    Char.isLower (Char.toLower c) = true := by
  simp only [Char.isUpper, Bool.and_eq_true, decide_eq_true_eq, uint32_le_iff] at h
  have hcond : Char.toNat c ≥ 65 ∧ Char.toNat c ≤ 90 := h
  have hv : (Char.toNat c + 32).isValidChar := by
    left
    simp only [Char.toNat] at hcond ⊢
    omega
  simp only [Char.toLower, hcond, if_pos, and_self]
  have hn := char_ofNat_toNat (Char.toNat c + 32) hv
  simp only [Char.isLower, Bool.and_eq_true, decide_eq_true_eq, uint32_le_iff]
  simp only [Char.toNat] at hn hcond ⊢
  constructor
  · simp only [show ((97 : UInt32)).toNat = 97 from rfl]
    omega
  · simp only [show ((122 : UInt32)).toNat = 122 from rfl]
    omega

theorem lowerAlnum_isAlphanum (c : Char) (h : lowerAlnum c = true) :
    Char.isAlphanum c = true := by
  simp only [lowerAlnum, Bool.or_eq_true] at h
  simp only [Char.isAlphanum, Char.isAlpha, Bool.or_eq_true]
  rcases h with h | h
  · exact Or.inl (Or.inr h)
  · exact Or.inr h

theorem isAlphanum_nameCharOk (c : Char)
    (ha : Char.isAlphanum c = true) (hc : nameCharOk c = true) : lowerAlnum c = true := by
  simp only [nameCharOk, Bool.or_eq_true, beq_iff_eq] at hc
  rcases hc with hc | hc
  · exact hc
  · subst hc
    simp only [Char.isAlphanum, Char.isAlpha, Char.isUpper, Char.isLower, Char.isDigit] at ha
    exact absurd ha (by decide)

theorem headD_mem_of_ne_nil {α : Type} {l : List α} {d : α} (h : l ≠ []) :
    l.headD d ∈ l := by
  cases l with
  | nil => exact absurd rfl h
  | cons a l => simp

theorem getLastD_mem_of_ne_nil {α : Type} {l : List α} {d : α} (h : l ≠ []) :
    l.getLastD d ∈ l := by
  have h1 := List.getLast_mem_getLast? h
  rw [List.getLastD_eq_getLast?]
  cases hq : l.getLast? with
  | none =>
      rw [hq] at h1
      cases h1
  | some x =>
      rw [hq] at h1
      have hx : x = l.getLast h := by
        simpa using h1
      simp only [Option.getD_some]
      rw [hx]
      exact List.getLast_mem h

theorem validate_eq_true_iff (name kind : List Char) :
    validate_azure_ml_name name kind = (true, none) ↔ specNameGrammar name = true := by
  unfold validate_azure_ml_name
  split_ifs with h1 h2 h3 h4 h5 h6
  · apply iff_of_false (by simp)
    simp only [specNameGrammar, Bool.and_eq_true, decide_eq_true_eq]
    rintro ⟨⟨⟨⟨⟨⟨hl, -⟩, -⟩, -⟩, -⟩, -⟩, -⟩
    rw [List.isEmpty_iff] at h1
    subst h1
    simp at hl
  · apply iff_of_false (by simp)
    simp only [specNameGrammar, Bool.and_eq_true, decide_eq_true_eq]
    rintro ⟨⟨⟨⟨⟨⟨hl, -⟩, -⟩, -⟩, -⟩, -⟩, -⟩
    omega
  · apply iff_of_false (by simp)
    simp only [specNameGrammar, Bool.and_eq_true, decide_eq_true_eq]
    rintro ⟨⟨⟨⟨⟨⟨-, hl⟩, -⟩, -⟩, -⟩, -⟩, -⟩
    omega
  · apply iff_of_false (by simp)
    simp only [specNameGrammar, Bool.and_eq_true, decide_eq_true_eq]
    rintro ⟨⟨⟨⟨⟨⟨-, -⟩, -⟩, hh⟩, hg⟩, -⟩, -⟩
    simp only [Bool.not_eq_true', Bool.and_eq_false_iff] at h4
    rcases h4 with h4 | h4
    · rw [lowerAlnum_isAlphanum _ hh] at h4
      cases h4
    · rw [lowerAlnum_isAlphanum _ hg] at h4
      cases h4
  · apply iff_of_false (by simp)
    simp only [specNameGrammar, Bool.and_eq_true, decide_eq_true_eq]
    rintro ⟨⟨⟨⟨⟨⟨-, -⟩, -⟩, -⟩, -⟩, ha⟩, -⟩
    simp only [Bool.not_eq_true'] at h5
    rw [ha] at h5
    cases h5
  · apply iff_of_false (by simp)
    simp only [specNameGrammar, Bool.and_eq_true, decide_eq_true_eq, Bool.not_eq_true']
    rintro ⟨⟨⟨⟨⟨⟨-, -⟩, -⟩, -⟩, -⟩, -⟩, hs⟩
    rw [h6] at hs
    cases hs
  · apply iff_of_true rfl
    have hne : name ≠ [] := by
      intro h
      subst h
      simp at h1
    simp only [Bool.not_eq_true'] at h5 h6
    simp only [Bool.not_eq_true', Bool.and_eq_false_iff] at h4
    have hall : name.all nameCharOk = true := by
      cases hx : name.all nameCharOk
      · exact absurd hx h5
      · rfl
    have halnum : Char.isAlphanum (name.headD ' ') = true ∧
        Char.isAlphanum (name.getLastD ' ') = true := by
      constructor
      · cases hx : Char.isAlphanum (name.headD ' ')
        · exact absurd (Or.inl hx) h4
        · rfl
      · cases hx : Char.isAlphanum (name.getLastD ' ')
        · exact absurd (Or.inr hx) h4
        · rfl
    have hheadC : nameCharOk (name.headD ' ') = true :=
      List.all_eq_true.mp hall _ (headD_mem_of_ne_nil hne)
    have hlastC : nameCharOk (name.getLastD ' ') = true :=
      List.all_eq_true.mp hall _ (getLastD_mem_of_ne_nil hne)
    simp only [specNameGrammar, Bool.and_eq_true, decide_eq_true_eq]
    refine ⟨⟨⟨⟨⟨⟨by omega, by omega⟩, by omega⟩, ?_⟩, ?_⟩, hall⟩, by simp [h6]⟩
    · exact isAlphanum_nameCharOk _ halnum.1 hheadC
    · exact isAlphanum_nameCharOk _ halnum.2 hlastC

theorem findSome?_check_cons (b : Bool) (r : List Char) (l : List (Bool × List Char)) :
    ((b, r) :: l).findSome? (fun p => if p.1 then none else some p.2) =
      if b then l.findSome? (fun p => if p.1 then none else some p.2) else some r := by
  cases b <;> simp [List.findSome?]

theorem bool_not_true {b : Bool} (h : ¬(b = true)) : b = false := by
  cases b
  · rfl
  · exact absurd rfl h

theorem bool_not_false {b : Bool} (h : (!b) = false) : b = true := by
  cases b
  · exact absurd h (by decide)
  · rfl

theorem bool_bang_true {b : Bool} (h : (!b) = true) : b = false := by
  cases b
  · rfl
  · exact absurd h (by decide)

theorem validate_reason_eq (name kind : List Char) :
    (validate_azure_ml_name name kind).2 = specFirstFailReason name kind := by
  unfold validate_azure_ml_name specFirstFailReason specChecks
  split_ifs with h1 h2 h3 h4 h5 h6 <;>
    simp only [findSome?_check_cons, List.findSome?_nil]
  · simp only [h1]
    simp
  · have eA : name.isEmpty = false := bool_not_true h1
    have eB : decide (3 ≤ name.length) = false := by
      simp only [decide_eq_false_iff_not]
      omega
    simp only [eA, eB]
    simp
  · have eA : name.isEmpty = false := bool_not_true h1
    have eB : decide (3 ≤ name.length) = true := by
      simp only [decide_eq_true_eq]
      omega
    have eC : decide (name.length ≤ 32) = false := by
      simp only [decide_eq_false_iff_not]
      omega
    simp only [eA, eB, eC]
    simp
  · have eA : name.isEmpty = false := bool_not_true h1
    have eB : decide (3 ≤ name.length) = true := by
      simp only [decide_eq_true_eq]
      omega
    have eC : decide (name.length ≤ 32) = true := by
      simp only [decide_eq_true_eq]
      omega
    have eD : (Char.isAlphanum (name.headD ' ') && Char.isAlphanum (name.getLastD ' ')) = false :=
      bool_bang_true h4
    simp only [eA, eB, eC, eD]
    simp
  · have eA : name.isEmpty = false := bool_not_true h1
    have eB : decide (3 ≤ name.length) = true := by
      simp only [decide_eq_true_eq]
      omega
    have eC : decide (name.length ≤ 32) = true := by
      simp only [decide_eq_true_eq]
      omega
    have eD : (Char.isAlphanum (name.headD ' ') && Char.isAlphanum (name.getLastD ' ')) = true :=
      bool_not_false (bool_not_true h4)
    have eE : name.all nameCharOk = false := bool_bang_true h5
    simp only [eA, eB, eC, eD, eE]
    simp
  · have eA : name.isEmpty = false := bool_not_true h1
    have eB : decide (3 ≤ name.length) = true := by
      simp only [decide_eq_true_eq]
      omega
    have eC : decide (name.length ≤ 32) = true := by
      simp only [decide_eq_true_eq]
      omega
    have eD : (Char.isAlphanum (name.headD ' ') && Char.isAlphanum (name.getLastD ' ')) = true :=
      bool_not_false (bool_not_true h4)
    have eE : name.all nameCharOk = true := bool_not_false (bool_not_true h5)
    simp only [eA, eB, eC, eD, eE, h6]
    simp
  · have eA : name.isEmpty = false := bool_not_true h1
    have eB : decide (3 ≤ name.length) = true := by
      simp only [decide_eq_true_eq]
      omega
    have eC : decide (name.length ≤ 32) = true := by
      simp only [decide_eq_true_eq]
      omega
    have eD : (Char.isAlphanum (name.headD ' ') && Char.isAlphanum (name.getLastD ' ')) = true :=
      bool_not_false (bool_not_true h4)
    have eE : name.all nameCharOk = true := bool_not_false (bool_not_true h5)
    have eF : isSubstr ['-', '-'] name = false := bool_not_true h6
    simp only [eA, eB, eC, eD, eE, eF]
    simp

/--
C3: `validate_azure_ml_name(name, kind)` returns `(True, None)` exactly when
`name` matches the grammar `^[a-z0-9][a-z0-9-]*[a-z0-9]$` with length between
3 and 32 and no `--` substring; otherwise it returns the reason of the first
failing check in the fixed order (non-empty; length ≥ 3; length ≤ 32;
boundary characters alphanumeric; charset `[a-z0-9-]+`; no consecutive
hyphens).
-/
theorem C3_validate_grammar_and_reason (name kind : List Char) :
    (validate_azure_ml_name name kind = (true, none) ↔ specNameGrammar name = true)
    ∧ (validate_azure_ml_name name kind).2 = specFirstFailReason name kind :=
  ⟨validate_eq_true_iff name kind, validate_reason_eq name kind⟩

/--
C10: the boolean verdict of `validate_azure_ml_name` does not depend on the
`name_type` argument; `name_type` only flows into the error message text.
-/
theorem C10_validate_verdict_ignores_name_type (name k1 k2 : List Char) :
    (validate_azure_ml_name name k1).1 = (validate_azure_ml_name name k2).1 := by
  unfold validate_azure_ml_name
  split_ifs <;> rfl

/- ### Name generators -/

/-- The single-character hyphen string. -/
def dashL : List Char := ['-']

/--
`generate_unique_endpoint_name(base_name, max_length)` from `endpoint_naming.py`.
The nondeterministic inputs are passed explicitly: `ts` is the
`strftime("%m%d-%H%M")` timestamp, `uid6` the first six characters of the
first `uuid4()`, `uid4` the first four characters of the second `uuid4()`
drawn in the short-base fallback branch.
-/
def generate_unique_endpoint_name (base_name : List Char) (max_length : Nat)
    (ts uid6 uid4 : List Char) : List Char :=
  if (pyReplaceChar (pyLower base_name) '_' '-' ++ dashL ++ ts ++ dashL ++ uid6).length
      > max_length then
    if ((max_length : Int) - ((ts.length : Int) + uid6.length + 2)) < 3 then
      ("pp").toList ++ dashL ++ ts ++ dashL ++ uid4
    else
      (pyReplaceChar (pyLower base_name) '_' '-').take
          ((max_length : Int) - ((ts.length : Int) + uid6.length + 2)).toNat
        ++ dashL ++ ts ++ dashL ++ uid6
  else
    pyReplaceChar (pyLower base_name) '_' '-' ++ dashL ++ ts ++ dashL ++ uid6

/--
`generate_unique_deployment_name(base_name, max_length)` from
`endpoint_naming.py`; `ts` is the `strftime("%m%d%H%M")` timestamp and `uid4`
the first four characters of `uuid4()`.
-/
def generate_unique_deployment_name (base_name : List Char) (max_length : Nat)
    (ts uid4 : List Char) : List Char :=
  if (pyReplaceChar (pyLower base_name) '_' '-' ++ dashL ++ ts ++ dashL ++ uid4).length
      > max_length then
    if (("pp-dep").toList ++ dashL ++ ts ++ dashL ++ uid4).length > max_length then
      (("pp-dep").toList ++ dashL ++ ts ++ dashL ++ uid4).take max_length
    else
      ("pp-dep").toList ++ dashL ++ ts ++ dashL ++ uid4
  else
    pyReplaceChar (pyLower base_name) '_' '-' ++ dashL ++ ts ++ dashL ++ uid4

/-- An ASCII letter (either case) or digit: what Python `str.isalnum`
accepts on the ASCII inputs of interest. -/
def asciiAlnum (c : Char) : Bool := c.isUpper || c.isLower || c.isDigit

/-- Shape of `strftime("%m%d-%H%M")` output: four digits, hyphen, four digits. -/
def tsEndpointOk (ts : List Char) : Prop :=
  ∃ a b : List Char, ts = a ++ dashL ++ b ∧ a.length = 4 ∧ b.length = 4 ∧
    a.all Char.isDigit = true ∧ b.all Char.isDigit = true

/-- Shape of `strftime("%m%d%H%M")` output: eight digits. -/
def tsDeployOk (ts : List Char) : Prop :=
  ts.length = 8 ∧ ts.all Char.isDigit = true

/-- A length-`n` prefix of a `uuid4()` string: `n ≤ 8` such characters are
lowercase hex digits, hence lowercase alphanumerics. -/
def uidOk (n : Nat) (u : List Char) : Prop :=
  u.length = n ∧ u.all lowerAlnum = true

/-- Two adjacent hyphens somewhere in the string. -/
def hasDD : List Char → Bool
  | c1 :: c2 :: rest => (c1 == '-' && c2 == '-') || hasDD (c2 :: rest)
  | _ => false

/-- Join a list of segments with single hyphens. -/
def joinDash : List (List Char) → List Char
  | [] => []
  | [s] => s
  | s :: s2 :: rest => s ++ dashL ++ joinDash (s2 :: rest)

theorem hasDD_cons (a : Char) (l : List Char) :
    hasDD (a :: l) = (((a == '-') && ((l.headD 'x') == '-') && !(l.isEmpty)) || hasDD l) := by
  cases l with
  | nil => simp [hasDD]
  | cons b r => simp [hasDD, Bool.and_assoc]

theorem isSubstr_dd_eq_hasDD (s : List Char) : isSubstr ['-', '-'] s = hasDD s := by
  induction s with
  | nil => rfl
  | cons c rest ih =>
      cases rest with
      | nil => simp [isSubstr, hasDD, List.tails, List.isPrefixOf]
      | cons c2 r2 =>
          simp only [hasDD]
          rw [← ih]
          simp only [isSubstr, List.tails, List.any_cons, List.isPrefixOf, Bool.and_assoc]
          have hbc : ∀ x y : Char, (x == y) = (y == x) := fun x y => Bool.beq_comm
          rw [hbc '-' c, hbc '-' c2]
          simp [Bool.and_assoc]

theorem lowerAlnum_ne_dash (c : Char) (h : lowerAlnum c = true) : (c == '-') = false := by
  cases hx : c == '-'
  · rfl
  · rw [eq_of_beq hx] at h
    exact absurd h (by decide)

theorem all_mono {p q : Char → Bool} (himp : ∀ c, p c = true → q c = true)
    {l : List Char} (h : l.all p = true) : l.all q = true := by
  rw [List.all_eq_true] at h ⊢
  exact fun x hx => himp x (h x hx)

theorem hasDD_of_all_lowerAlnum (s : List Char) (h : s.all lowerAlnum = true) :
    hasDD s = false := by
  induction s with
  | nil => rfl
  | cons a r ih =>
      rw [hasDD_cons]
      simp only [List.all_cons, Bool.and_eq_true] at h
      rw [lowerAlnum_ne_dash a h.1, ih h.2]
      rfl

theorem headD_append_left (s t : List Char) (d : Char) (h : s ≠ []) :
    (s ++ t).headD d = s.headD d := by
  cases s with
  | nil => exact absurd rfl h
  | cons a r => rfl

theorem getLastD_default_irrel (ys : List Char) (d d' : Char) (h : ys ≠ []) :
    ys.getLastD d = ys.getLastD d' := by
  cases ys with
  | nil => exact absurd rfl h
  | cons a r => rfl

theorem getLastD_append_right (xs ys : List Char) (d : Char) (h : ys ≠ []) :
    (xs ++ ys).getLastD d = ys.getLastD d := by
  induction xs generalizing d with
  | nil => rfl
  | cons a xs ih =>
      rw [List.cons_append, List.getLastD_cons, ih a]
      exact getLastD_default_irrel ys a d h

theorem hasDD_append_dash (s t : List Char) (hs : s.all lowerAlnum = true)
    (hth : lowerAlnum (t.headD ' ') = true) (htne : t ≠ []) (ht : hasDD t = false) :
    hasDD (s ++ '-' :: t) = false := by
  induction s with
  | nil =>
      simp only [List.nil_append]
      rw [hasDD_cons]
      have h1 : ((t.headD 'x') == '-') = false := by
        cases t with
        | nil => exact absurd rfl htne
        | cons b r => exact lowerAlnum_ne_dash b (by simpa using hth)
      rw [h1, ht]
      simp
  | cons a s ih =>
      simp only [List.all_cons, Bool.and_eq_true] at hs
      rw [List.cons_append, hasDD_cons, lowerAlnum_ne_dash a hs.1, ih hs.2]
      rfl

theorem joinDash_good (segs : List (List Char)) (hne : segs ≠ [])
    (h : ∀ s ∈ segs, s ≠ [] ∧ s.all lowerAlnum = true) :
    joinDash segs ≠ [] ∧
    lowerAlnum ((joinDash segs).headD ' ') = true ∧
    lowerAlnum ((joinDash segs).getLastD ' ') = true ∧
    (joinDash segs).all nameCharOk = true ∧
    hasDD (joinDash segs) = false := by
  induction segs with
  | nil => exact absurd rfl hne
  | cons s rest ih =>
      cases rest with
      | nil =>
          obtain ⟨hsne, hsall⟩ := h s (by simp)
          refine ⟨hsne, ?_, ?_, ?_, ?_⟩
          · exact List.all_eq_true.mp hsall _ (headD_mem_of_ne_nil hsne)
          · exact List.all_eq_true.mp hsall _ (getLastD_mem_of_ne_nil hsne)
          · exact all_mono (fun c hc => by simp [nameCharOk, hc]) hsall
          · exact hasDD_of_all_lowerAlnum s hsall
      | cons s2 rest2 =>
          obtain ⟨hsne, hsall⟩ := h s (by simp)
          obtain ⟨hjne, hjh, hjl, hja, hjd⟩ :=
            ih (by simp) (fun x hx => h x (List.mem_cons_of_mem _ hx))
          have hshape : joinDash (s :: s2 :: rest2) = s ++ '-' :: joinDash (s2 :: rest2) := by
            simp [joinDash, dashL]
          refine ⟨?_, ?_, ?_, ?_, ?_⟩
          · rw [hshape]
            simp [hsne]
          · rw [hshape, headD_append_left _ _ _ hsne]
            exact List.all_eq_true.mp hsall _ (headD_mem_of_ne_nil hsne)
          · rw [hshape, getLastD_append_right _ _ _ (by simp), List.getLastD_cons]
            rw [getLastD_default_irrel _ '-' ' ' hjne]
            exact hjl
          · rw [hshape]
            simp only [List.all_append, List.all_cons, Bool.and_eq_true]
            refine ⟨all_mono (fun c hc => by simp [nameCharOk, hc]) hsall, ?_, hja⟩
            rfl
          · rw [hshape]
            exact hasDD_append_dash s _ hsall hjh hjne hjd

theorem validate_of_good (nm kind : List Char) (h3 : 3 ≤ nm.length) (h32 : nm.length ≤ 32)
    (hh : lowerAlnum (nm.headD ' ') = true) (hl : lowerAlnum (nm.getLastD ' ') = true)
    (ha : nm.all nameCharOk = true) (hdd : hasDD nm = false) :
    validate_azure_ml_name nm kind = (true, none) := by
  rw [validate_eq_true_iff]
  simp only [specNameGrammar, Bool.and_eq_true, decide_eq_true_eq]
  refine ⟨⟨⟨⟨⟨⟨h3, h32⟩, by omega⟩, hh⟩, hl⟩, ha⟩, ?_⟩
  rw [isSubstr_dd_eq_hasDD, hdd]
  rfl

theorem asciiAlnum_processed (c : Char) (h : asciiAlnum c = true) :
    lowerAlnum (if Char.toLower c = '_' then '-' else Char.toLower c) = true := by
  have hlc : lowerAlnum (Char.toLower c) = true := by
    simp only [asciiAlnum, Bool.or_eq_true] at h
    rcases h with (h | h) | h
    · simp [lowerAlnum, isUpper_toLower c h]
    · rw [toLower_eq_self c (by simp [lowerAlnum, h])]
      simp [lowerAlnum, h]
    · rw [toLower_eq_self c (by simp [lowerAlnum, h])]
      simp [lowerAlnum, h]
  have hne : Char.toLower c ≠ '_' := by
    intro he
    rw [he] at hlc
    exact absurd hlc (by decide)
  rw [if_neg hne]
  exact hlc

theorem processed_base_all (base : List Char) (hchars : base.all asciiAlnum = true) :
    (pyReplaceChar (pyLower base) '_' '-').all lowerAlnum = true := by
  simp only [pyReplaceChar, pyLower, List.map_map, List.all_map]
  rw [List.all_eq_true] at hchars ⊢
  intro c hc
  exact asciiAlnum_processed c (hchars c hc)

theorem processed_base_length (base : List Char) :
    (pyReplaceChar (pyLower base) '_' '-').length = base.length := by
  simp [pyReplaceChar, pyLower]

theorem endpoint_name_good (base : List Char) (max_length : Nat) (ts uid6 uid4 kind : List Char)
    (hbne : base ≠ []) (hchars : base.all asciiAlnum = true)
    (hml1 : 17 ≤ max_length) (hml2 : max_length ≤ 32)
    (hts : tsEndpointOk ts) (hu6 : uidOk 6 uid6) (hu4 : uidOk 4 uid4) :
    (generate_unique_endpoint_name base max_length ts uid6 uid4).length ≤ max_length ∧
    validate_azure_ml_name (generate_unique_endpoint_name base max_length ts uid6 uid4) kind
      = (true, none) := by
  obtain ⟨a, b, hts_eq, ha4, hb4, had, hbd⟩ := hts
  obtain ⟨hu6len, hu6all⟩ := hu6
  obtain ⟨hu4len, hu4all⟩ := hu4
  have hb'all := processed_base_all base hchars
  have hb'len := processed_base_length base
  have hbpos : 1 ≤ base.length := by
    cases base with
    | nil => exact absurd rfl hbne
    | cons c r => simp
  have hb'ne : pyReplaceChar (pyLower base) '_' '-' ≠ [] := by
    intro hx
    rw [hx] at hb'len
    simp at hb'len
    omega
  have hts_len : ts.length = 9 := by
    rw [hts_eq]
    simp only [List.length_append, dashL, List.length_cons, List.length_nil, ha4, hb4]
  have hcand_len :
      (pyReplaceChar (pyLower base) '_' '-' ++ dashL ++ ts ++ dashL ++ uid6).length
        = base.length + 17 := by
    simp only [List.length_append, dashL, List.length_cons, List.length_nil, hb'len,
      hts_len, hu6len]
  have hsa : a ≠ [] ∧ a.all lowerAlnum = true := by
    constructor
    · intro hx
      rw [hx] at ha4
      simp at ha4
    · exact all_mono (fun c hc => by simp [lowerAlnum, hc]) had
  have hsb : b ≠ [] ∧ b.all lowerAlnum = true := by
    constructor
    · intro hx
      rw [hx] at hb4
      simp at hb4
    · exact all_mono (fun c hc => by simp [lowerAlnum, hc]) hbd
  have hsu : uid6 ≠ [] ∧ uid6.all lowerAlnum = true := by
    constructor
    · intro hx
      rw [hx] at hu6len
      simp at hu6len
    · exact hu6all
  have hsu4 : uid4 ≠ [] ∧ uid4.all lowerAlnum = true := by
    constructor
    · intro hx
      rw [hx] at hu4len
      simp at hu4len
    · exact hu4all
  by_cases hcase : base.length + 17 > max_length
  · by_cases havail : max_length < 20
    · -- candidate exceeds the budget and even a minimal base cannot fit:
      -- the short "pp" fallback with the four-character uuid prefix
      have hng : generate_unique_endpoint_name base max_length ts uid6 uid4
          = ("pp").toList ++ dashL ++ ts ++ dashL ++ uid4 := by
        unfold generate_unique_endpoint_name
        rw [if_pos (by rw [hcand_len]; exact hcase)]
        rw [if_pos (by rw [hts_len, hu6len]; omega)]
      have hjoin : ("pp").toList ++ dashL ++ ts ++ dashL ++ uid4
          = joinDash [("pp").toList, a, b, uid4] := by
        rw [hts_eq]
        simp [joinDash, dashL, List.append_assoc]
      have hlen : (joinDash [("pp").toList, a, b, uid4]).length = 17 := by
        rw [← hjoin]
        simp only [List.length_append, dashL, List.length_cons, List.length_nil,
          hts_len, hu4len]
        rfl
      obtain ⟨hne', hh', hl', ha', hd'⟩ :=
        joinDash_good [("pp").toList, a, b, uid4]
          (by simp)
          (by
            intro s hs
            simp only [List.mem_cons, List.not_mem_nil, or_false] at hs
            rcases hs with rfl | rfl | rfl | rfl
            · exact ⟨by simp, by decide⟩
            · exact hsa
            · exact hsb
            · exact hsu4)
      rw [hng, hjoin]
      refine ⟨by omega, ?_⟩
      exact validate_of_good _ kind (by omega) (by omega) hh' hl' ha' hd'
    · -- candidate exceeds the budget but a truncated base still fits
      have h20 : 20 ≤ max_length := by omega
      have hng : generate_unique_endpoint_name base max_length ts uid6 uid4
          = (pyReplaceChar (pyLower base) '_' '-').take (max_length - 17)
              ++ dashL ++ ts ++ dashL ++ uid6 := by
        unfold generate_unique_endpoint_name
        rw [if_pos (by rw [hcand_len]; exact hcase)]
        rw [if_neg (by rw [hts_len, hu6len]; omega)]
        have hk : ((max_length : Int) - (((9 : Nat) : Int) + ((6 : Nat) : Int) + 2)).toNat
            = max_length - 17 := by omega
        rw [hts_len, hu6len, hk]
      have htk_len : ((pyReplaceChar (pyLower base) '_' '-').take (max_length - 17)).length
          = max_length - 17 := by
        rw [List.length_take, hb'len]
        omega
      have htk_ne : (pyReplaceChar (pyLower base) '_' '-').take (max_length - 17) ≠ [] := by
        intro hx
        rw [hx] at htk_len
        simp at htk_len
        omega
      have htk_all : ((pyReplaceChar (pyLower base) '_' '-').take (max_length - 17)).all
          lowerAlnum = true := by
        rw [List.all_eq_true] at hb'all ⊢
        intro x hx
        exact hb'all x (List.take_subset _ _ hx)
      have hjoin : (pyReplaceChar (pyLower base) '_' '-').take (max_length - 17)
            ++ dashL ++ ts ++ dashL ++ uid6
          = joinDash [(pyReplaceChar (pyLower base) '_' '-').take (max_length - 17), a, b, uid6] := by
        rw [hts_eq]
        simp [joinDash, dashL, List.append_assoc]
      have hlen : ((pyReplaceChar (pyLower base) '_' '-').take (max_length - 17)
            ++ dashL ++ ts ++ dashL ++ uid6).length = max_length := by
        simp only [List.length_append, dashL, List.length_cons, List.length_nil, htk_len,
          hts_len, hu6len]
        omega
      obtain ⟨hne', hh', hl', ha', hd'⟩ :=
        joinDash_good [(pyReplaceChar (pyLower base) '_' '-').take (max_length - 17), a, b, uid6]
          (by simp)
          (by
            intro s hs
            simp only [List.mem_cons, List.not_mem_nil, or_false] at hs
            rcases hs with rfl | rfl | rfl | rfl
            · exact ⟨htk_ne, htk_all⟩
            · exact hsa
            · exact hsb
            · exact hsu)
      rw [hng, hjoin]
      rw [hjoin] at hlen
      refine ⟨by omega, ?_⟩
      exact validate_of_good _ kind (by omega) (by omega) hh' hl' ha' hd'
  · -- candidate fits: returned unchanged
    have hng : generate_unique_endpoint_name base max_length ts uid6 uid4
        = pyReplaceChar (pyLower base) '_' '-' ++ dashL ++ ts ++ dashL ++ uid6 := by
      unfold generate_unique_endpoint_name
      rw [if_neg (by rw [hcand_len]; exact hcase)]
    have hjoin : pyReplaceChar (pyLower base) '_' '-' ++ dashL ++ ts ++ dashL ++ uid6
        = joinDash [pyReplaceChar (pyLower base) '_' '-', a, b, uid6] := by
      rw [hts_eq]
      simp [joinDash, dashL, List.append_assoc]
    have hlen : (joinDash [pyReplaceChar (pyLower base) '_' '-', a, b, uid6]).length
        = base.length + 17 := by
      rw [← hjoin]
      exact hcand_len
    obtain ⟨hne', hh', hl', ha', hd'⟩ :=
      joinDash_good [pyReplaceChar (pyLower base) '_' '-', a, b, uid6]
        (by simp)
        (by
          intro s hs
          simp only [List.mem_cons, List.not_mem_nil, or_false] at hs
          rcases hs with rfl | rfl | rfl | rfl
          · exact ⟨hb'ne, hb'all⟩
          · exact hsa
          · exact hsb
          · exact hsu)
    rw [hng, hjoin]
    refine ⟨by omega, ?_⟩
    exact validate_of_good _ kind (by omega) (by omega) hh' hl' ha' hd'

theorem deployment_name_good (base : List Char) (max_length : Nat) (ts uid4 kind : List Char)
    (hbne : base ≠ []) (hchars : base.all asciiAlnum = true)
    (hml1 : 17 ≤ max_length) (hml2 : max_length ≤ 32)
    (hts : tsDeployOk ts) (hu4 : uidOk 4 uid4) :
    (generate_unique_deployment_name base max_length ts uid4).length ≤ max_length ∧
    validate_azure_ml_name (generate_unique_deployment_name base max_length ts uid4) kind
      = (true, none) := by
  obtain ⟨hts_len, hts_all⟩ := hts
  obtain ⟨hu4len, hu4all⟩ := hu4
  have hb'all := processed_base_all base hchars
  have hb'len := processed_base_length base
  have hbpos : 1 ≤ base.length := by
    cases base with
    | nil => exact absurd rfl hbne
    | cons c r => simp
  have hb'ne : pyReplaceChar (pyLower base) '_' '-' ≠ [] := by
    intro hx
    rw [hx] at hb'len
    simp at hb'len
    omega
  have hcand_len :
      (pyReplaceChar (pyLower base) '_' '-' ++ dashL ++ ts ++ dashL ++ uid4).length
        = base.length + 14 := by
    simp only [List.length_append, dashL, List.length_cons, List.length_nil, hb'len,
      hts_len, hu4len]
  have hfall_len : (("pp-dep").toList ++ dashL ++ ts ++ dashL ++ uid4).length = 20 := by
    simp only [List.length_append, dashL, List.length_cons, List.length_nil, hts_len, hu4len]
    rfl
  have hst : ts ≠ [] ∧ ts.all lowerAlnum = true := by
    constructor
    · intro hx
      rw [hx] at hts_len
      simp at hts_len
    · exact all_mono (fun c hc => by simp [lowerAlnum, hc]) hts_all
  have hsu : uid4 ≠ [] ∧ uid4.all lowerAlnum = true := by
    constructor
    · intro hx
      rw [hx] at hu4len
      simp at hu4len
    · exact hu4all
  by_cases hcase : base.length + 14 > max_length
  · by_cases htr : max_length < 20
    · -- abbreviated-base fallback still exceeds the budget: truncated to
      -- `max_length` characters, which cuts inside the uuid suffix
      have hng : generate_unique_deployment_name base max_length ts uid4
          = (("pp-dep").toList ++ dashL ++ ts ++ dashL ++ uid4).take max_length := by
        unfold generate_unique_deployment_name
        rw [if_pos (by rw [hcand_len]; exact hcase)]
        rw [if_pos (by rw [hfall_len]; omega)]
      have hQlen : (("pp-dep").toList ++ dashL ++ ts ++ dashL).length = 16 := by
        simp only [List.length_append, dashL, List.length_cons, List.length_nil, hts_len]
        rfl
      have htake : (("pp-dep").toList ++ dashL ++ ts ++ dashL ++ uid4).take max_length
          = ("pp-dep").toList ++ dashL ++ ts ++ dashL ++ uid4.take (max_length - 16) := by
        rw [List.take_append_eq_append_take]
        rw [List.take_of_length_le (by rw [hQlen]; omega), hQlen]
      have htk_len : (uid4.take (max_length - 16)).length = max_length - 16 := by
        rw [List.length_take, hu4len]
        omega
      have htk_ne : uid4.take (max_length - 16) ≠ [] := by
        intro hx
        rw [hx] at htk_len
        simp at htk_len
        omega
      have htk_all : (uid4.take (max_length - 16)).all lowerAlnum = true := by
        rw [List.all_eq_true] at hu4all ⊢
        intro x hx
        exact hu4all x (List.take_subset _ _ hx)
      have hjoin : ("pp-dep").toList ++ dashL ++ ts ++ dashL ++ uid4.take (max_length - 16)
          = joinDash [("pp").toList, ("dep").toList, ts, uid4.take (max_length - 16)] := by
        simp [joinDash, dashL, List.append_assoc]
      have hpp6 : (("pp-dep").toList).length = 6 := rfl
      have hlen : (joinDash [("pp").toList, ("dep").toList, ts,
            uid4.take (max_length - 16)]).length = max_length := by
        rw [← hjoin]
        simp only [List.length_append, dashL, List.length_cons, List.length_nil, hts_len,
          htk_len, hpp6]
        omega
      obtain ⟨hne', hh', hl', ha', hd'⟩ :=
        joinDash_good [("pp").toList, ("dep").toList, ts, uid4.take (max_length - 16)]
          (by simp)
          (by
            intro s hs
            simp only [List.mem_cons, List.not_mem_nil, or_false] at hs
            rcases hs with rfl | rfl | rfl | rfl
            · exact ⟨by simp, by decide⟩
            · exact ⟨by simp, by decide⟩
            · exact hst
            · exact ⟨htk_ne, htk_all⟩)
      rw [hng, htake, hjoin]
      refine ⟨by omega, ?_⟩
      exact validate_of_good _ kind (by omega) (by omega) hh' hl' ha' hd'
    · -- abbreviated-base fallback fits: not truncated
      have h20 : 20 ≤ max_length := by omega
      have hng : generate_unique_deployment_name base max_length ts uid4
          = ("pp-dep").toList ++ dashL ++ ts ++ dashL ++ uid4 := by
        unfold generate_unique_deployment_name
        rw [if_pos (by rw [hcand_len]; exact hcase)]
        rw [if_neg (by rw [hfall_len]; omega)]
      have hjoin : ("pp-dep").toList ++ dashL ++ ts ++ dashL ++ uid4
          = joinDash [("pp").toList, ("dep").toList, ts, uid4] := by
        simp [joinDash, dashL, List.append_assoc]
      have hlen : (joinDash [("pp").toList, ("dep").toList, ts, uid4]).length = 20 := by
        rw [← hjoin]
        exact hfall_len
      obtain ⟨hne', hh', hl', ha', hd'⟩ :=
        joinDash_good [("pp").toList, ("dep").toList, ts, uid4]
          (by simp)
          (by
            intro s hs
            simp only [List.mem_cons, List.not_mem_nil, or_false] at hs
            rcases hs with rfl | rfl | rfl | rfl
            · exact ⟨by simp, by decide⟩
            · exact ⟨by simp, by decide⟩
            · exact hst
            · exact hsu)
      rw [hng, hjoin]
      refine ⟨by omega, ?_⟩
      exact validate_of_good _ kind (by omega) (by omega) hh' hl' ha' hd'
  · -- candidate fits: returned unchanged
    have hng : generate_unique_deployment_name base max_length ts uid4
        = pyReplaceChar (pyLower base) '_' '-' ++ dashL ++ ts ++ dashL ++ uid4 := by
      unfold generate_unique_deployment_name
      rw [if_neg (by rw [hcand_len]; exact hcase)]
    have hjoin : pyReplaceChar (pyLower base) '_' '-' ++ dashL ++ ts ++ dashL ++ uid4
        = joinDash [pyReplaceChar (pyLower base) '_' '-', ts, uid4] := by
      simp [joinDash, dashL, List.append_assoc]
    have hlen : (joinDash [pyReplaceChar (pyLower base) '_' '-', ts, uid4]).length
        = base.length + 14 := by
      rw [← hjoin]
      exact hcand_len
    obtain ⟨hne', hh', hl', ha', hd'⟩ :=
      joinDash_good [pyReplaceChar (pyLower base) '_' '-', ts, uid4]
        (by simp)
        (by
          intro s hs
          simp only [List.mem_cons, List.not_mem_nil, or_false] at hs
          rcases hs with rfl | rfl | rfl
          · exact ⟨hb'ne, hb'all⟩
          · exact hst
          · exact hsu)
    rw [hng, hjoin]
    refine ⟨by omega, ?_⟩
    exact validate_of_good _ kind (by omega) (by omega) hh' hl' ha' hd'

/--
C2 counterexample: the claim "for every base of ASCII alphanumerics,
underscores and hyphens and every `max_length ≥ 3`, the generated endpoint
and deployment names have length ≤ `max_length` and pass
`validate_azure_ml_name`" is false on the code: with `max_length = 3` the
endpoint generator returns a 17-character fallback name; a base ending in a
hyphen yields `--` in the output; with `max_length = 50` the output exceeds
the validator's 32-character cap; and the deployment generator truncates its
fallback to `pp-dep-`, which ends in a hyphen.
-/
theorem C2_counterexample :
    (generate_unique_endpoint_name (("abc").toList) 3 (("0101-1234").toList)
        (("abcdef").toList) (("abcd").toList)).length > 3
    ∧ (validate_azure_ml_name
        (generate_unique_endpoint_name (("ab-").toList) 32 (("0101-1234").toList)
          (("abcdef").toList) (("abcd").toList)) (("endpoint").toList)).1 = false
    ∧ (validate_azure_ml_name
        (generate_unique_endpoint_name (("abcdefghijklmnop").toList) 50 (("0101-1234").toList)
          (("abcdef").toList) (("abcd").toList)) (("endpoint").toList)).1 = false
    ∧ (validate_azure_ml_name
        (generate_unique_deployment_name (("abc").toList) 7 (("01011234").toList)
          (("abcd").toList)) (("deployment").toList)).1 = false := by
  decide

/--
C2 (amended): for every nonempty base of ASCII letters and digits and every
`max_length` with `17 ≤ max_length ≤ 32`, and for timestamp/uuid components
of the shapes `strftime` and `uuid4` actually produce, the generated endpoint
and deployment names have length ≤ `max_length` and pass
`validate_azure_ml_name`.
-/
theorem C2_generated_names_bounded_and_valid
    (base : List Char) (max_length : Nat) (tsE tsD uid6 uid4 uid4d kind : List Char)
    (hbne : base ≠ []) (hchars : base.all asciiAlnum = true)
    (hml1 : 17 ≤ max_length) (hml2 : max_length ≤ 32)
    (htsE : tsEndpointOk tsE) (htsD : tsDeployOk tsD)
    (hu6 : uidOk 6 uid6) (hu4 : uidOk 4 uid4) (hu4d : uidOk 4 uid4d) :
    ((generate_unique_endpoint_name base max_length tsE uid6 uid4).length ≤ max_length ∧
      validate_azure_ml_name (generate_unique_endpoint_name base max_length tsE uid6 uid4) kind
        = (true, none)) ∧
    ((generate_unique_deployment_name base max_length tsD uid4d).length ≤ max_length ∧
      validate_azure_ml_name (generate_unique_deployment_name base max_length tsD uid4d) kind
        = (true, none)) :=
  ⟨endpoint_name_good base max_length tsE uid6 uid4 kind hbne hchars hml1 hml2 htsE hu6 hu4,
   deployment_name_good base max_length tsD uid4d kind hbne hchars hml1 hml2 htsD hu4d⟩

/-- Witness for the amended C2 at a concrete input. -/
theorem C2_generated_names_bounded_and_valid_witness :
    ((generate_unique_endpoint_name (("Abc12").toList) 20 (("0101-1234").toList)
        (("abc123").toList) (("ab12").toList)).length ≤ 20 ∧
      validate_azure_ml_name (generate_unique_endpoint_name (("Abc12").toList) 20
        (("0101-1234").toList) (("abc123").toList) (("ab12").toList)) (("endpoint").toList)
        = (true, none)) ∧
    ((generate_unique_deployment_name (("Abc12").toList) 20 (("01011234").toList)
        (("9f3a").toList)).length ≤ 20 ∧
      validate_azure_ml_name (generate_unique_deployment_name (("Abc12").toList) 20
        (("01011234").toList) (("9f3a").toList)) (("endpoint").toList) = (true, none)) :=
  C2_generated_names_bounded_and_valid (("Abc12").toList) 20 (("0101-1234").toList)
    (("01011234").toList) (("abc123").toList) (("ab12").toList) (("9f3a").toList)
    (("endpoint").toList)
    (by decide) (by decide) (by decide) (by decide)
    ⟨("0101").toList, ("1234").toList, by decide, by decide, by decide, by decide, by decide⟩
    ⟨by decide, by decide⟩ ⟨by decide, by decide⟩ ⟨by decide, by decide⟩ ⟨by decide, by decide⟩

/- ### Retry loops -/

/-- Observable events of one retry-loop run. -/
inductive RetryEv where
  | attempt (k : Nat) (nm : List Char)
  | sleepFor (seconds : Nat)
  | cleanupDelete (nm : List Char) (failed : Bool)
  | exhaustedFallthrough
deriving DecidableEq

/-- Behaviour of the cloud client and the clock during one call:
`create k nm` is the outcome of the `k`-th `begin_create_or_update(...).result()`
call under name `nm`; `deleteFails k` says whether the cleanup delete at retry
`k` raises; `timeVal k` is `int(time.time() % 10000)` (resp. `% 1000`) observed
at retry `k`; `tsGen`/`uid6Gen`/`uid4Gen` are the timestamp and uuid prefixes
drawn if the fallback name generator runs at retry `k`. -/
structure CloudEnv (H : Type) where
  create : Nat → List Char → Except (List Char) H
  deleteFails : Nat → Bool
  timeVal : Nat → Nat
  tsGen : Nat → List Char
  uid6Gen : Nat → List Char
  uid4Gen : Nat → List Char

/-- A configuration object: the mutable `name` field plus all other fields. -/
structure ResourceConfig (A : Type) where
  name : List Char
  rest : A
deriving DecidableEq

/-- Trace, final configuration and outcome of a retry-loop run. -/
structure RunResult (H A : Type) where
  events : List RetryEv
  cfg : ResourceConfig A
  result : Except (List Char) H

def endpoint_retryable_errors : List (List Char) :=
  [ ("has not been created successfully").toList,
    ("endpoint is being deleted").toList,
    ("endpoint already exists").toList,
    ("provisioning failed").toList,
    ("resource conflict").toList,
    ("timeout").toList ]

def deployment_retryable_errors : List (List Char) :=
  [ ("deployment failed").toList,
    ("image build failed").toList,
    ("timeout").toList,
    ("resource temporarily unavailable").toList,
    ("provisioning failed").toList ]

/-- `any(err in str(e).lower() for err in retryable_errors)` for endpoints. -/
def is_retryable_endpoint (msg : List Char) : Bool :=
  endpoint_retryable_errors.any (fun err => isSubstr err (pyLower msg))

/-- `any(err in str(e).lower() for err in retryable_errors)` for deployments. -/
def is_retryable_deployment (msg : List Char) : Bool :=
  deployment_retryable_errors.any (fun err => isSubstr err (pyLower msg))

/-- `f"retry{retry_count + 1}-{int(time.time() % 10000)}"` at retry `k`. -/
def endpointRetrySuffix {H : Type} (env : CloudEnv H) (k : Nat) : List Char :=
  ("retry").toList ++ (Nat.repr (k + 1)).toList ++ dashL ++ (Nat.repr (env.timeVal k)).toList

/-- The new endpoint name installed at retry `k`. -/
def endpointRetryName {H : Type} (env : CloudEnv H) (original_name : List Char)
    (k : Nat) : List Char :=
  if original_name.length + (endpointRetrySuffix env k).length + 1 ≤ 32 then
    original_name ++ dashL ++ endpointRetrySuffix env k
  else
    generate_unique_endpoint_name (("pp-retry").toList) 32 (env.tsGen k) (env.uid6Gen k)
      (env.uid4Gen k)

/-- `f"r{retry_count + 1}-{int(time.time() % 1000)}"` at retry `k`. -/
def deploymentRetrySuffix {H : Type} (env : CloudEnv H) (k : Nat) : List Char :=
  ("r").toList ++ (Nat.repr (k + 1)).toList ++ dashL ++ (Nat.repr (env.timeVal k)).toList

/-- The new deployment name installed at retry `k`. -/
def deploymentRetryName {H : Type} (env : CloudEnv H) (original_name : List Char)
    (k : Nat) : List Char :=
  if original_name.length + (deploymentRetrySuffix env k).length + 1 ≤ 32 then
    original_name ++ dashL ++ deploymentRetrySuffix env k
  else
    generate_unique_deployment_name (("pp-dep-retry").toList) 32 (env.tsGen k) (env.uid4Gen k)

/-- The body of `create_endpoint_with_cleanup_retry`'s `while retry_count <=
max_retries` loop; `fuel` is the number of remaining loop iterations
(`max_retries + 1 - retry_count`), so `fuel = 0` is the loop exit, where the
code raises the synthetic "Failed to create endpoint ..." error. -/
def endpointGo {H A : Type} (env : CloudEnv H) (max_retries retry_delay : Nat)
    (original_name : List Char) :
    Nat → Nat → ResourceConfig A → RunResult H A
  | 0, _, cfg =>
      ⟨[RetryEv.exhaustedFallthrough], cfg,
        Except.error (("Failed to create endpoint after ").toList
          ++ (Nat.repr (max_retries + 1)).toList ++ (" attempts").toList)⟩
  | fuel + 1, retry_count, cfg =>
      match env.create retry_count cfg.name with
      | Except.ok h => ⟨[RetryEv.attempt retry_count cfg.name], cfg, Except.ok h⟩
      | Except.error e =>
          if is_retryable_endpoint e = false ∨ max_retries ≤ retry_count then
            ⟨[RetryEv.attempt retry_count cfg.name], cfg, Except.error e⟩
          else
            if retry_count < max_retries then
              ⟨RetryEv.attempt retry_count cfg.name
                  :: RetryEv.cleanupDelete cfg.name (env.deleteFails retry_count)
                  :: RetryEv.sleepFor retry_delay
                  :: (endpointGo env max_retries retry_delay original_name fuel
                      (retry_count + 1)
                      ⟨endpointRetryName env original_name retry_count, cfg.rest⟩).events,
                (endpointGo env max_retries retry_delay original_name fuel (retry_count + 1)
                  ⟨endpointRetryName env original_name retry_count, cfg.rest⟩).cfg,
                (endpointGo env max_retries retry_delay original_name fuel (retry_count + 1)
                  ⟨endpointRetryName env original_name retry_count, cfg.rest⟩).result⟩
            else
              ⟨RetryEv.attempt retry_count cfg.name
                  :: RetryEv.cleanupDelete cfg.name (env.deleteFails retry_count)
                  :: (endpointGo env max_retries retry_delay original_name fuel
                      (retry_count + 1) cfg).events,
                (endpointGo env max_retries retry_delay original_name fuel
                  (retry_count + 1) cfg).cfg,
                (endpointGo env max_retries retry_delay original_name fuel
                  (retry_count + 1) cfg).result⟩

/-- `create_endpoint_with_cleanup_retry(ml_client, endpoint_config,
max_retries, retry_delay)`. -/
def create_endpoint_with_cleanup_retry {H A : Type} (env : CloudEnv H)
    (cfg : ResourceConfig A) (max_retries retry_delay : Nat) : RunResult H A :=
  endpointGo env max_retries retry_delay cfg.name (max_retries + 1) 0 cfg

/-- The body of `create_deployment_with_retry`'s loop; unlike the endpoint
loop it performs no cleanup delete between attempts. -/
def deploymentGo {H A : Type} (env : CloudEnv H) (max_retries retry_delay : Nat)
    (original_name : List Char) :
    Nat → Nat → ResourceConfig A → RunResult H A
  | 0, _, cfg =>
      ⟨[RetryEv.exhaustedFallthrough], cfg,
        Except.error (("Failed to create deployment after ").toList
          ++ (Nat.repr (max_retries + 1)).toList ++ (" attempts").toList)⟩
  | fuel + 1, retry_count, cfg =>
      match env.create retry_count cfg.name with
      | Except.ok h => ⟨[RetryEv.attempt retry_count cfg.name], cfg, Except.ok h⟩
      | Except.error e =>
          if is_retryable_deployment e = false ∨ max_retries ≤ retry_count then
            ⟨[RetryEv.attempt retry_count cfg.name], cfg, Except.error e⟩
          else
            if retry_count < max_retries then
              ⟨RetryEv.attempt retry_count cfg.name
                  :: RetryEv.sleepFor retry_delay
                  :: (deploymentGo env max_retries retry_delay original_name fuel
                      (retry_count + 1)
                      ⟨deploymentRetryName env original_name retry_count, cfg.rest⟩).events,
                (deploymentGo env max_retries retry_delay original_name fuel (retry_count + 1)
                  ⟨deploymentRetryName env original_name retry_count, cfg.rest⟩).cfg,
                (deploymentGo env max_retries retry_delay original_name fuel (retry_count + 1)
                  ⟨deploymentRetryName env original_name retry_count, cfg.rest⟩).result⟩
            else
              ⟨RetryEv.attempt retry_count cfg.name
                  :: (deploymentGo env max_retries retry_delay original_name fuel
                      (retry_count + 1) cfg).events,
                (deploymentGo env max_retries retry_delay original_name fuel
                  (retry_count + 1) cfg).cfg,
                (deploymentGo env max_retries retry_delay original_name fuel
                  (retry_count + 1) cfg).result⟩

/-- `create_deployment_with_retry(ml_client, deployment_config, max_retries,
retry_delay)`. -/
def create_deployment_with_retry {H A : Type} (env : CloudEnv H)
    (cfg : ResourceConfig A) (max_retries retry_delay : Nat) : RunResult H A :=
  deploymentGo env max_retries retry_delay cfg.name (max_retries + 1) 0 cfg

def attemptCount (evs : List RetryEv) : Nat :=
  evs.countP (fun ev => match ev with | RetryEv.attempt _ _ => true | _ => false)

def cleanupCount (evs : List RetryEv) : Nat :=
  evs.countP (fun ev => match ev with | RetryEv.cleanupDelete _ _ => true | _ => false)

def sleepCount (evs : List RetryEv) : Nat :=
  evs.countP (fun ev => match ev with | RetryEv.sleepFor _ => true | _ => false)

def hasExhausted (evs : List RetryEv) : Bool :=
  evs.any (fun ev => match ev with | RetryEv.exhaustedFallthrough => true | _ => false)

@[simp] theorem attemptCount_nil : attemptCount [] = 0 := rfl

@[simp] theorem attemptCount_cons_attempt (k : Nat) (nm : List Char) (evs : List RetryEv) :
    attemptCount (RetryEv.attempt k nm :: evs) = attemptCount evs + 1 := by
  simp [attemptCount, List.countP_cons]

@[simp] theorem attemptCount_cons_sleep (s : Nat) (evs : List RetryEv) :
    attemptCount (RetryEv.sleepFor s :: evs) = attemptCount evs := by
  simp [attemptCount, List.countP_cons]

@[simp] theorem attemptCount_cons_cleanup (nm : List Char) (f : Bool) (evs : List RetryEv) :
    attemptCount (RetryEv.cleanupDelete nm f :: evs) = attemptCount evs := by
  simp [attemptCount, List.countP_cons]

@[simp] theorem attemptCount_cons_exh (evs : List RetryEv) :
    attemptCount (RetryEv.exhaustedFallthrough :: evs) = attemptCount evs := by
  simp [attemptCount, List.countP_cons]

@[simp] theorem cleanupCount_nil : cleanupCount [] = 0 := rfl

@[simp] theorem cleanupCount_cons_attempt (k : Nat) (nm : List Char) (evs : List RetryEv) :
    cleanupCount (RetryEv.attempt k nm :: evs) = cleanupCount evs := by
  simp [cleanupCount, List.countP_cons]

@[simp] theorem cleanupCount_cons_sleep (s : Nat) (evs : List RetryEv) :
    cleanupCount (RetryEv.sleepFor s :: evs) = cleanupCount evs := by
  simp [cleanupCount, List.countP_cons]

@[simp] theorem cleanupCount_cons_cleanup (nm : List Char) (f : Bool) (evs : List RetryEv) :
    cleanupCount (RetryEv.cleanupDelete nm f :: evs) = cleanupCount evs + 1 := by
  simp [cleanupCount, List.countP_cons]

@[simp] theorem cleanupCount_cons_exh (evs : List RetryEv) :
    cleanupCount (RetryEv.exhaustedFallthrough :: evs) = cleanupCount evs := by
  simp [cleanupCount, List.countP_cons]

@[simp] theorem sleepCount_nil : sleepCount [] = 0 := rfl

@[simp] theorem sleepCount_cons_attempt (k : Nat) (nm : List Char) (evs : List RetryEv) :
    sleepCount (RetryEv.attempt k nm :: evs) = sleepCount evs := by
  simp [sleepCount, List.countP_cons]

@[simp] theorem sleepCount_cons_sleep (s : Nat) (evs : List RetryEv) :
    sleepCount (RetryEv.sleepFor s :: evs) = sleepCount evs + 1 := by
  simp [sleepCount, List.countP_cons]

@[simp] theorem sleepCount_cons_cleanup (nm : List Char) (f : Bool) (evs : List RetryEv) :
    sleepCount (RetryEv.cleanupDelete nm f :: evs) = sleepCount evs := by
  simp [sleepCount, List.countP_cons]

@[simp] theorem sleepCount_cons_exh (evs : List RetryEv) :
    sleepCount (RetryEv.exhaustedFallthrough :: evs) = sleepCount evs := by
  simp [sleepCount, List.countP_cons]

@[simp] theorem hasExhausted_nil : hasExhausted [] = false := rfl

@[simp] theorem hasExhausted_cons_attempt (k : Nat) (nm : List Char) (evs : List RetryEv) :
    hasExhausted (RetryEv.attempt k nm :: evs) = hasExhausted evs := by
  simp [hasExhausted]

@[simp] theorem hasExhausted_cons_sleep (s : Nat) (evs : List RetryEv) :
    hasExhausted (RetryEv.sleepFor s :: evs) = hasExhausted evs := by
  simp [hasExhausted]

@[simp] theorem hasExhausted_cons_cleanup (nm : List Char) (f : Bool) (evs : List RetryEv) :
    hasExhausted (RetryEv.cleanupDelete nm f :: evs) = hasExhausted evs := by
  simp [hasExhausted]

@[simp] theorem hasExhausted_cons_exh (evs : List RetryEv) :
    hasExhausted (RetryEv.exhaustedFallthrough :: evs) = true := by
  simp [hasExhausted]

theorem getLast?_cons_ne {α : Type} (x : α) (l : List α) (h : l ≠ []) :
    (x :: l).getLast? = l.getLast? := by
  cases l with
  | nil => exact absurd rfl h
  | cons b t => exact List.getLast?_cons_cons

theorem endpointGo_master {H A : Type} (env : CloudEnv H) (m d : Nat) (orig : List Char) :
    ∀ (fuel rc : Nat) (cfg : ResourceConfig A), rc + fuel = m + 1 → 1 ≤ fuel →
    (endpointGo env m d orig fuel rc cfg).events ≠ [] ∧
    hasExhausted (endpointGo env m d orig fuel rc cfg).events = false ∧
    1 ≤ attemptCount (endpointGo env m d orig fuel rc cfg).events ∧
    attemptCount (endpointGo env m d orig fuel rc cfg).events ≤ fuel ∧
    cleanupCount (endpointGo env m d orig fuel rc cfg).events
      = attemptCount (endpointGo env m d orig fuel rc cfg).events - 1 ∧
    sleepCount (endpointGo env m d orig fuel rc cfg).events
      = attemptCount (endpointGo env m d orig fuel rc cfg).events - 1 ∧
    (endpointGo env m d orig fuel rc cfg).cfg.rest = cfg.rest ∧
    (∃ k nm, ((endpointGo env m d orig fuel rc cfg).events).getLast?
        = some (RetryEv.attempt k nm) ∧
      ∀ e, (endpointGo env m d orig fuel rc cfg).result = Except.error e →
        env.create k nm = Except.error e) ∧
    (∀ k nm, RetryEv.attempt k nm ∈ (endpointGo env m d orig fuel rc cfg).events →
      (k = rc ∧ nm = cfg.name) ∨ (rc + 1 ≤ k ∧ nm = endpointRetryName env orig (k - 1))) := by
  intro fuel
  induction fuel with
  | zero =>
      intro rc cfg hinv hge
      exact absurd hge (by omega)
  | succ f ih =>
      intro rc cfg hinv hge
      cases hcr : env.create rc cfg.name with
      | ok h =>
          simp only [endpointGo, hcr]
          refine ⟨by simp, by simp, by simp, by simp, by simp, by simp, by trivial, ?_, ?_⟩
          · exact ⟨rc, cfg.name, by simp, fun e he => by cases he⟩
          · intro k nm hmem
            simp only [List.mem_cons, List.not_mem_nil, or_false] at hmem
            have := hmem
            injection this with h1 h2
            exact Or.inl ⟨h1, h2⟩
      | error e =>
          by_cases hretry : is_retryable_endpoint e = false ∨ m ≤ rc
          · simp only [endpointGo, hcr, if_pos hretry]
            refine ⟨by simp, by simp, by simp, by simp, by simp, by simp, by trivial, ?_, ?_⟩
            · refine ⟨rc, cfg.name, by simp, fun e' he' => ?_⟩
              injection he' with h1
              rw [hcr, h1]
            · intro k nm hmem
              simp only [List.mem_cons, List.not_mem_nil, or_false] at hmem
              injection hmem with h1 h2
              exact Or.inl ⟨h1, h2⟩
          · have hrc : rc < m := by
              rcases Nat.lt_or_ge rc m with hx | hx
              · exact hx
              · exact absurd (Or.inr hx) hretry
            have hf : 1 ≤ f := by omega
            obtain ⟨ihne, ihex, ih1, ihle, ihcc, ihsc, ihrest,
                ⟨k0, nm0, ihlast, ihsrc⟩, ihmem⟩ :=
              ih (rc + 1) ⟨endpointRetryName env orig rc, cfg.rest⟩ (by omega) hf
            simp only [endpointGo, hcr, if_neg hretry, if_pos hrc]
            refine ⟨by simp, ?_, ?_, ?_, ?_, ?_, ?_, ?_, ?_⟩
            · simp [ihex]
            · simp
            · simp
              omega
            · simp
              omega
            · simp
              omega
            · exact ihrest
            · refine ⟨k0, nm0, ?_, ihsrc⟩
              rw [getLast?_cons_ne _ _ (by simp [ihne]),
                getLast?_cons_ne _ _ (by simp [ihne]),
                getLast?_cons_ne _ _ ihne]
              exact ihlast
            · intro k nm hmem
              simp only [List.mem_cons] at hmem
              rcases hmem with heq | heq | heq | hmem
              · injection heq with h1 h2
                exact Or.inl ⟨h1, h2⟩
              · cases heq
              · cases heq
              · rcases ihmem k nm hmem with ⟨hk, hnm⟩ | ⟨hk, hnm⟩
                · subst hk
                  subst hnm
                  exact Or.inr ⟨by omega, by simp⟩
                · exact Or.inr ⟨by omega, hnm⟩

theorem deploymentGo_master {H A : Type} (env : CloudEnv H) (m d : Nat) (orig : List Char) :
    ∀ (fuel rc : Nat) (cfg : ResourceConfig A), rc + fuel = m + 1 → 1 ≤ fuel →
    (deploymentGo env m d orig fuel rc cfg).events ≠ [] ∧
    hasExhausted (deploymentGo env m d orig fuel rc cfg).events = false ∧
    1 ≤ attemptCount (deploymentGo env m d orig fuel rc cfg).events ∧
    attemptCount (deploymentGo env m d orig fuel rc cfg).events ≤ fuel ∧
    cleanupCount (deploymentGo env m d orig fuel rc cfg).events = 0 ∧
    sleepCount (deploymentGo env m d orig fuel rc cfg).events
      = attemptCount (deploymentGo env m d orig fuel rc cfg).events - 1 ∧
    (deploymentGo env m d orig fuel rc cfg).cfg.rest = cfg.rest ∧
    (∃ k nm, ((deploymentGo env m d orig fuel rc cfg).events).getLast?
        = some (RetryEv.attempt k nm) ∧
      ∀ e, (deploymentGo env m d orig fuel rc cfg).result = Except.error e →
        env.create k nm = Except.error e) ∧
    (∀ k nm, RetryEv.attempt k nm ∈ (deploymentGo env m d orig fuel rc cfg).events →
      (k = rc ∧ nm = cfg.name) ∨ (rc + 1 ≤ k ∧ nm = deploymentRetryName env orig (k - 1))) := by
  intro fuel
  induction fuel with
  | zero =>
      intro rc cfg hinv hge
      exact absurd hge (by omega)
  | succ f ih =>
      intro rc cfg hinv hge
      cases hcr : env.create rc cfg.name with
      | ok h =>
          simp only [deploymentGo, hcr]
          refine ⟨by simp, by simp, by simp, by simp, by simp, by simp, by trivial, ?_, ?_⟩
          · exact ⟨rc, cfg.name, by simp, fun e he => by cases he⟩
          · intro k nm hmem
            simp only [List.mem_cons, List.not_mem_nil, or_false] at hmem
            injection hmem with h1 h2
            exact Or.inl ⟨h1, h2⟩
      | error e =>
          by_cases hretry : is_retryable_deployment e = false ∨ m ≤ rc
          · simp only [deploymentGo, hcr, if_pos hretry]
            refine ⟨by simp, by simp, by simp, by simp, by simp, by simp, by trivial, ?_, ?_⟩
            · refine ⟨rc, cfg.name, by simp, fun e' he' => ?_⟩
              injection he' with h1
              rw [hcr, h1]
            · intro k nm hmem
              simp only [List.mem_cons, List.not_mem_nil, or_false] at hmem
              injection hmem with h1 h2
              exact Or.inl ⟨h1, h2⟩
          · have hrc : rc < m := by
              rcases Nat.lt_or_ge rc m with hx | hx
              · exact hx
              · exact absurd (Or.inr hx) hretry
            have hf : 1 ≤ f := by omega
            obtain ⟨ihne, ihex, ih1, ihle, ihcc, ihsc, ihrest,
                ⟨k0, nm0, ihlast, ihsrc⟩, ihmem⟩ :=
              ih (rc + 1) ⟨deploymentRetryName env orig rc, cfg.rest⟩ (by omega) hf
            simp only [deploymentGo, hcr, if_neg hretry, if_pos hrc]
            refine ⟨by simp, ?_, ?_, ?_, ?_, ?_, ?_, ?_, ?_⟩
            · simp [ihex]
            · simp
            · simp
              omega
            · simp
              omega
            · simp
              omega
            · exact ihrest
            · refine ⟨k0, nm0, ?_, ihsrc⟩
              rw [getLast?_cons_ne _ _ (by simp [ihne]), getLast?_cons_ne _ _ ihne]
              exact ihlast
            · intro k nm hmem
              simp only [List.mem_cons] at hmem
              rcases hmem with heq | heq | hmem
              · injection heq with h1 h2
                exact Or.inl ⟨h1, h2⟩
              · cases heq
              · rcases ihmem k nm hmem with ⟨hk, hnm⟩ | ⟨hk, hnm⟩
                · subst hk
                  subst hnm
                  exact Or.inr ⟨by omega, by simp⟩
                · exact Or.inr ⟨by omega, hnm⟩

theorem endpointGo_exhaust {H A : Type} (env : CloudEnv H) (m d : Nat) (orig : List Char)
    (hre : ∀ k nm, ∃ e, env.create k nm = Except.error e ∧ is_retryable_endpoint e = true) :
    ∀ (fuel rc : Nat) (cfg : ResourceConfig A), rc + fuel = m + 1 →
    attemptCount (endpointGo env m d orig fuel rc cfg).events = fuel ∧
    ∃ e, (endpointGo env m d orig fuel rc cfg).result = Except.error e := by
  intro fuel
  induction fuel with
  | zero =>
      intro rc cfg hinv
      exact ⟨by simp [endpointGo], ⟨_, rfl⟩⟩
  | succ f ih =>
      intro rc cfg hinv
      obtain ⟨e, hcr, hree⟩ := hre rc cfg.name
      by_cases hm : m ≤ rc
      · have hf : f = 0 := by omega
        subst hf
        simp only [endpointGo, hcr, if_pos (Or.inr hm)]
        exact ⟨by simp, ⟨e, rfl⟩⟩
      · have hrc : rc < m := by omega
        have hcond : ¬(is_retryable_endpoint e = false ∨ m ≤ rc) := by
          rintro (hx | hx)
          · rw [hree] at hx
            cases hx
          · exact hm hx
        obtain ⟨iha, ihe⟩ :=
          ih (rc + 1) ⟨endpointRetryName env orig rc, cfg.rest⟩ (by omega)
        simp only [endpointGo, hcr, if_neg hcond, if_pos hrc]
        refine ⟨?_, ?_⟩
        · simp [iha]
        · exact ihe

theorem deploymentGo_exhaust {H A : Type} (env : CloudEnv H) (m d : Nat) (orig : List Char)
    (hre : ∀ k nm, ∃ e, env.create k nm = Except.error e ∧ is_retryable_deployment e = true) :
    ∀ (fuel rc : Nat) (cfg : ResourceConfig A), rc + fuel = m + 1 →
    attemptCount (deploymentGo env m d orig fuel rc cfg).events = fuel ∧
    ∃ e, (deploymentGo env m d orig fuel rc cfg).result = Except.error e := by
  intro fuel
  induction fuel with
  | zero =>
      intro rc cfg hinv
      exact ⟨by simp [deploymentGo], ⟨_, rfl⟩⟩
  | succ f ih =>
      intro rc cfg hinv
      obtain ⟨e, hcr, hree⟩ := hre rc cfg.name
      by_cases hm : m ≤ rc
      · have hf : f = 0 := by omega
        subst hf
        simp only [deploymentGo, hcr, if_pos (Or.inr hm)]
        exact ⟨by simp, ⟨e, rfl⟩⟩
      · have hrc : rc < m := by omega
        have hcond : ¬(is_retryable_deployment e = false ∨ m ≤ rc) := by
          rintro (hx | hx)
          · rw [hree] at hx
            cases hx
          · exact hm hx
        obtain ⟨iha, ihe⟩ :=
          ih (rc + 1) ⟨deploymentRetryName env orig rc, cfg.rest⟩ (by omega)
        simp only [deploymentGo, hcr, if_neg hcond, if_pos hrc]
        refine ⟨?_, ?_⟩
        · simp [iha]
        · exact ihe

/-- The same environment with a different cleanup-delete behaviour. -/
def withDeleteFails {H : Type} (env : CloudEnv H) (g : Nat → Bool) : CloudEnv H :=
  { env with deleteFails := g }

theorem endpointGo_deleteFails_irrel {H A : Type} (env : CloudEnv H) (g : Nat → Bool)
    (m d : Nat) (orig : List Char) :
    ∀ (fuel rc : Nat) (cfg : ResourceConfig A),
    (endpointGo (withDeleteFails env g) m d orig fuel rc cfg).result
      = (endpointGo env m d orig fuel rc cfg).result ∧
    (endpointGo (withDeleteFails env g) m d orig fuel rc cfg).cfg
      = (endpointGo env m d orig fuel rc cfg).cfg ∧
    attemptCount (endpointGo (withDeleteFails env g) m d orig fuel rc cfg).events
      = attemptCount (endpointGo env m d orig fuel rc cfg).events := by
  intro fuel
  induction fuel with
  | zero =>
      intro rc cfg
      exact ⟨rfl, rfl, rfl⟩
  | succ f ih =>
      intro rc cfg
      cases hcr : env.create rc cfg.name with
      | ok h =>
          have hcr2 : (withDeleteFails env g).create rc cfg.name = Except.ok h := hcr
          simp [endpointGo, hcr, hcr2]
      | error e =>
          have hcr2 : (withDeleteFails env g).create rc cfg.name = Except.error e := hcr
          by_cases hretry : is_retryable_endpoint e = false ∨ m ≤ rc
          · simp [endpointGo, hcr, hcr2, hretry]
          · have hrc : rc < m := by
              rcases Nat.lt_or_ge rc m with hx | hx
              · exact hx
              · exact absurd (Or.inr hx) hretry
            have hrn : endpointRetryName (withDeleteFails env g) orig rc
                = endpointRetryName env orig rc := rfl
            obtain ⟨ihr, ihc, iha⟩ :=
              ih (rc + 1) ⟨endpointRetryName env orig rc, cfg.rest⟩
            simp [endpointGo, hcr, hcr2, hretry, hrc, hrn, ihr, ihc, iha]

theorem endpointGo_cleanup_name {H A : Type} (env : CloudEnv H) (m d : Nat)
    (orig : List Char) :
    ∀ (fuel rc : Nat) (cfg : ResourceConfig A) (nm : List Char) (fg : Bool),
    RetryEv.cleanupDelete nm fg ∈ (endpointGo env m d orig fuel rc cfg).events →
    ∃ k, RetryEv.attempt k nm ∈ (endpointGo env m d orig fuel rc cfg).events := by
  intro fuel
  induction fuel with
  | zero =>
      intro rc cfg nm fg hmem
      simp [endpointGo] at hmem
  | succ f ih =>
      intro rc cfg nm fg hmem
      cases hcr : env.create rc cfg.name with
      | ok h =>
          simp only [endpointGo, hcr] at hmem ⊢
          simp at hmem
      | error e =>
          by_cases hretry : is_retryable_endpoint e = false ∨ m ≤ rc
          · simp only [endpointGo, hcr, if_pos hretry] at hmem ⊢
            simp at hmem
          · have hrc : rc < m := by
              rcases Nat.lt_or_ge rc m with hx | hx
              · exact hx
              · exact absurd (Or.inr hx) hretry
            simp only [endpointGo, hcr, if_neg hretry, if_pos hrc] at hmem ⊢
            simp only [List.mem_cons] at hmem
            rcases hmem with heq | heq | heq | hmem
            · cases heq
            · injection heq with h1 h2
              subst h1
              exact ⟨rc, by simp⟩
            · cases heq
            · obtain ⟨k, hk⟩ :=
                ih (rc + 1) ⟨endpointRetryName env orig rc, cfg.rest⟩ nm fg hmem
              exact ⟨k, by simp [hk]⟩

/- ### Concrete test environments for witnesses -/

def testEnvAllRetryable : CloudEnv Nat :=
  ⟨fun _ _ => Except.error (("timeout").toList), fun _ => false, fun _ => 0,
   fun _ => ("0101-1234").toList, fun _ => ("abc123").toList, fun _ => ("ab12").toList⟩

def testEnvSecondOk : CloudEnv Nat :=
  ⟨fun k _ => if k = 0 then Except.error (("timeout").toList) else Except.ok 7,
   fun _ => false, fun _ => 0,
   fun _ => ("0101-1234").toList, fun _ => ("abc123").toList, fun _ => ("ab12").toList⟩

def testEnvFatal : CloudEnv Nat :=
  ⟨fun _ _ => Except.error (("quota exceeded").toList), fun _ => false, fun _ => 0,
   fun _ => ("0101-1234").toList, fun _ => ("abc123").toList, fun _ => ("ab12").toList⟩

def testCfg : ResourceConfig Unit := ⟨("my-endpoint").toList, ()⟩

/--
C1: both retry loops make at most `max_retries + 1` creation attempts, and
when every creation attempt raises a retryable error they make exactly
`max_retries + 1` attempts and then raise.
-/
theorem C1_attempts_bounded_and_exhaustion {H A : Type} :
    (∀ (env : CloudEnv H) (cfg : ResourceConfig A) (m d : Nat),
      attemptCount (create_endpoint_with_cleanup_retry env cfg m d).events ≤ m + 1 ∧
      attemptCount (create_deployment_with_retry env cfg m d).events ≤ m + 1) ∧
    (∀ (env : CloudEnv H) (cfg : ResourceConfig A) (m d : Nat),
      (∀ k nm, ∃ e, env.create k nm = Except.error e ∧ is_retryable_endpoint e = true) →
      attemptCount (create_endpoint_with_cleanup_retry env cfg m d).events = m + 1 ∧
      ∃ e, (create_endpoint_with_cleanup_retry env cfg m d).result = Except.error e) ∧
    (∀ (env : CloudEnv H) (cfg : ResourceConfig A) (m d : Nat),
      (∀ k nm, ∃ e, env.create k nm = Except.error e ∧ is_retryable_deployment e = true) →
      attemptCount (create_deployment_with_retry env cfg m d).events = m + 1 ∧
      ∃ e, (create_deployment_with_retry env cfg m d).result = Except.error e) := by
  refine ⟨?_, ?_, ?_⟩
  · intro env cfg m d
    obtain ⟨-, -, -, hle, -⟩ :=
      endpointGo_master env m d cfg.name (m + 1) 0 cfg (by omega) (by omega)
    obtain ⟨-, -, -, hld, -⟩ :=
      deploymentGo_master env m d cfg.name (m + 1) 0 cfg (by omega) (by omega)
    exact ⟨hle, hld⟩
  · intro env cfg m d hre
    exact endpointGo_exhaust env m d cfg.name hre (m + 1) 0 cfg (by omega)
  · intro env cfg m d hre
    exact deploymentGo_exhaust env m d cfg.name hre (m + 1) 0 cfg (by omega)

/-- Witness for C1 at a concrete always-retryable environment. -/
theorem C1_attempts_bounded_and_exhaustion_witness :
    attemptCount (create_endpoint_with_cleanup_retry testEnvAllRetryable testCfg 1 0).events
      = 1 + 1 ∧
    (∃ e, (create_endpoint_with_cleanup_retry testEnvAllRetryable testCfg 1 0).result
      = Except.error e) ∧
    attemptCount (create_deployment_with_retry testEnvAllRetryable testCfg 1 0).events
      = 1 + 1 ∧
    (∃ e, (create_deployment_with_retry testEnvAllRetryable testCfg 1 0).result
      = Except.error e) :=
  ⟨((@C1_attempts_bounded_and_exhaustion Nat Unit).2.1 testEnvAllRetryable testCfg 1 0
      (fun k nm => ⟨("timeout").toList, rfl, by decide⟩)).1,
   ((@C1_attempts_bounded_and_exhaustion Nat Unit).2.1 testEnvAllRetryable testCfg 1 0
      (fun k nm => ⟨("timeout").toList, rfl, by decide⟩)).2,
   ((@C1_attempts_bounded_and_exhaustion Nat Unit).2.2 testEnvAllRetryable testCfg 1 0
      (fun k nm => ⟨("timeout").toList, rfl, by decide⟩)).1,
   ((@C1_attempts_bounded_and_exhaustion Nat Unit).2.2 testEnvAllRetryable testCfg 1 0
      (fun k nm => ⟨("timeout").toList, rfl, by decide⟩)).2⟩

/--
C4: a creation error matching no retryable substring is re-raised after the
first attempt: the run is exactly one attempt, with no sleep, no cleanup
delete, no second creation call, and an unchanged configuration.
-/
theorem C4_fatal_error_propagates_immediately {H A : Type} :
    (∀ (env : CloudEnv H) (cfg : ResourceConfig A) (m d : Nat) (e : List Char),
      env.create 0 cfg.name = Except.error e → is_retryable_endpoint e = false →
      create_endpoint_with_cleanup_retry env cfg m d
        = ⟨[RetryEv.attempt 0 cfg.name], cfg, Except.error e⟩) ∧
    (∀ (env : CloudEnv H) (cfg : ResourceConfig A) (m d : Nat) (e : List Char),
      env.create 0 cfg.name = Except.error e → is_retryable_deployment e = false →
      create_deployment_with_retry env cfg m d
        = ⟨[RetryEv.attempt 0 cfg.name], cfg, Except.error e⟩) := by
  constructor
  · intro env cfg m d e he hnr
    show endpointGo env m d cfg.name (m + 1) 0 cfg = _
    simp [endpointGo, he, hnr]
  · intro env cfg m d e he hnr
    show deploymentGo env m d cfg.name (m + 1) 0 cfg = _
    simp [deploymentGo, he, hnr]

/-- Witness for C4 at a concrete fatal-error environment. -/
theorem C4_fatal_error_propagates_immediately_witness :
    create_endpoint_with_cleanup_retry testEnvFatal testCfg 3 300
      = ⟨[RetryEv.attempt 0 testCfg.name], testCfg, Except.error (("quota exceeded").toList)⟩ ∧
    create_deployment_with_retry testEnvFatal testCfg 2 180
      = ⟨[RetryEv.attempt 0 testCfg.name], testCfg, Except.error (("quota exceeded").toList)⟩ :=
  ⟨(@C4_fatal_error_propagates_immediately Nat Unit).1 testEnvFatal testCfg 3 300
      (("quota exceeded").toList) rfl (by decide),
   (@C4_fatal_error_propagates_immediately Nat Unit).2 testEnvFatal testCfg 2 180
      (("quota exceeded").toList) rfl (by decide)⟩

/--
C5 counterexample: in `create_deployment_with_retry` a retryable failure
followed by another attempt triggers no cleanup delete at all — the run below
performs one retry (two attempts) yet zero cleanup deletes, so "the cleanup
delete is invoked exactly once per retry" fails for the deployment loop.
-/
theorem C5_counterexample :
    attemptCount (create_deployment_with_retry testEnvSecondOk testCfg 2 180).events = 2 ∧
    cleanupCount (create_deployment_with_retry testEnvSecondOk testCfg 2 180).events = 0 ∧
    (create_deployment_with_retry testEnvSecondOk testCfg 2 180).result = Except.ok 7 := by
  refine ⟨by decide, by decide, by rfl⟩

/--
C5 (amended): in `create_endpoint_with_cleanup_retry` the cleanup delete runs
exactly once per retry and never after the final attempt (the trace always
ends with an attempt); each cleanup delete targets the name of an attempt of
the same run; and a failing cleanup delete never changes the outcome, the
final configuration, or the number of attempts.  `create_deployment_with_retry`
performs no cleanup delete at all.
-/
theorem C5_cleanup_only_in_endpoint_loop {H A : Type} :
    (∀ (env : CloudEnv H) (cfg : ResourceConfig A) (m d : Nat),
      cleanupCount (create_endpoint_with_cleanup_retry env cfg m d).events
        = attemptCount (create_endpoint_with_cleanup_retry env cfg m d).events - 1 ∧
      (∃ k nm, (create_endpoint_with_cleanup_retry env cfg m d).events.getLast?
          = some (RetryEv.attempt k nm)) ∧
      (∀ nm fg,
        RetryEv.cleanupDelete nm fg ∈ (create_endpoint_with_cleanup_retry env cfg m d).events →
        ∃ k, RetryEv.attempt k nm ∈ (create_endpoint_with_cleanup_retry env cfg m d).events) ∧
      (∀ g, (create_endpoint_with_cleanup_retry (withDeleteFails env g) cfg m d).result
            = (create_endpoint_with_cleanup_retry env cfg m d).result ∧
        (create_endpoint_with_cleanup_retry (withDeleteFails env g) cfg m d).cfg
            = (create_endpoint_with_cleanup_retry env cfg m d).cfg ∧
        attemptCount (create_endpoint_with_cleanup_retry (withDeleteFails env g) cfg m d).events
            = attemptCount (create_endpoint_with_cleanup_retry env cfg m d).events)) ∧
    (∀ (env : CloudEnv H) (cfg : ResourceConfig A) (m d : Nat),
      cleanupCount (create_deployment_with_retry env cfg m d).events = 0) := by
  constructor
  · intro env cfg m d
    obtain ⟨-, -, -, -, hcc, -, -, ⟨k, nm, hlast, -⟩, -⟩ :=
      endpointGo_master env m d cfg.name (m + 1) 0 cfg (by omega) (by omega)
    refine ⟨hcc, ⟨k, nm, hlast⟩, ?_, ?_⟩
    · intro nm' fg hmem
      exact endpointGo_cleanup_name env m d cfg.name (m + 1) 0 cfg nm' fg hmem
    · intro g
      exact endpointGo_deleteFails_irrel env g m d cfg.name (m + 1) 0 cfg
  · intro env cfg m d
    obtain ⟨-, -, -, -, hcc, -⟩ :=
      deploymentGo_master env m d cfg.name (m + 1) 0 cfg (by omega) (by omega)
    exact hcc

/-- Witness for the amended C5 at a concrete environment. -/
theorem C5_cleanup_only_in_endpoint_loop_witness :
    cleanupCount (create_endpoint_with_cleanup_retry testEnvAllRetryable testCfg 1 300).events
      = attemptCount (create_endpoint_with_cleanup_retry testEnvAllRetryable testCfg 1 300).events
        - 1 ∧
    (∃ k, RetryEv.attempt k (("my-endpoint").toList)
      ∈ (create_endpoint_with_cleanup_retry testEnvAllRetryable testCfg 1 300).events) ∧
    cleanupCount (create_deployment_with_retry testEnvAllRetryable testCfg 1 180).events = 0 :=
  ⟨((@C5_cleanup_only_in_endpoint_loop Nat Unit).1 testEnvAllRetryable testCfg 1 300).1,
   ((@C5_cleanup_only_in_endpoint_loop Nat Unit).1 testEnvAllRetryable testCfg 1 300).2.2.1
      (("my-endpoint").toList) false (by decide),
   (@C5_cleanup_only_in_endpoint_loop Nat Unit).2 testEnvAllRetryable testCfg 1 180⟩

/--
C6: on each retry the next attempt's name is the original name plus a hyphen
and the retry-ordinal/time suffix whenever that fits in 32 characters, and
otherwise a fresh name from the fallback generator (`pp-retry` for endpoints,
`pp-dep-retry` for deployments).
-/
theorem C6_retry_name_formation {H A : Type} :
    (∀ (env : CloudEnv H) (cfg : ResourceConfig A) (m d k : Nat) (nm : List Char),
      RetryEv.attempt (k + 1) nm ∈ (create_endpoint_with_cleanup_retry env cfg m d).events →
      nm = (if cfg.name.length + (endpointRetrySuffix env k).length + 1 ≤ 32
            then cfg.name ++ dashL ++ endpointRetrySuffix env k
            else generate_unique_endpoint_name (("pp-retry").toList) 32 (env.tsGen k)
              (env.uid6Gen k) (env.uid4Gen k))) ∧
    (∀ (env : CloudEnv H) (cfg : ResourceConfig A) (m d k : Nat) (nm : List Char),
      RetryEv.attempt (k + 1) nm ∈ (create_deployment_with_retry env cfg m d).events →
      nm = (if cfg.name.length + (deploymentRetrySuffix env k).length + 1 ≤ 32
            then cfg.name ++ dashL ++ deploymentRetrySuffix env k
            else generate_unique_deployment_name (("pp-dep-retry").toList) 32 (env.tsGen k)
              (env.uid4Gen k))) := by
  constructor
  · intro env cfg m d k nm hmem
    obtain ⟨-, -, -, -, -, -, -, -, hnames⟩ :=
      endpointGo_master env m d cfg.name (m + 1) 0 cfg (by omega) (by omega)
    rcases hnames (k + 1) nm hmem with ⟨hk, -⟩ | ⟨-, hnm⟩
    · cases hk
    · simpa [endpointRetryName] using hnm
  · intro env cfg m d k nm hmem
    obtain ⟨-, -, -, -, -, -, -, -, hnames⟩ :=
      deploymentGo_master env m d cfg.name (m + 1) 0 cfg (by omega) (by omega)
    rcases hnames (k + 1) nm hmem with ⟨hk, -⟩ | ⟨-, hnm⟩
    · cases hk
    · simpa [deploymentRetryName] using hnm

/-- Witness for C6 at a concrete run with one retry. -/
theorem C6_retry_name_formation_witness :
    ("my-endpoint-retry1-0").toList
      = (if (("my-endpoint").toList).length
            + (endpointRetrySuffix testEnvSecondOk 0).length + 1 ≤ 32
         then ("my-endpoint").toList ++ dashL ++ endpointRetrySuffix testEnvSecondOk 0
         else generate_unique_endpoint_name (("pp-retry").toList) 32 (testEnvSecondOk.tsGen 0)
           (testEnvSecondOk.uid6Gen 0) (testEnvSecondOk.uid4Gen 0)) :=
  (@C6_retry_name_formation Nat Unit).1 testEnvSecondOk testCfg 3 300 0
    (("my-endpoint-retry1-0").toList) (by decide)

/--
C8: whenever either retry function raises, the raised error is the error of
the last creation attempt; the trailing synthetic "Failed to create ..."
raise after the loop is never reached.
-/
theorem C8_raise_carries_last_create_error {H A : Type} :
    (∀ (env : CloudEnv H) (cfg : ResourceConfig A) (m d : Nat),
      hasExhausted (create_endpoint_with_cleanup_retry env cfg m d).events = false ∧
      ∀ e, (create_endpoint_with_cleanup_retry env cfg m d).result = Except.error e →
        ∃ k nm, (create_endpoint_with_cleanup_retry env cfg m d).events.getLast?
            = some (RetryEv.attempt k nm) ∧ env.create k nm = Except.error e) ∧
    (∀ (env : CloudEnv H) (cfg : ResourceConfig A) (m d : Nat),
      hasExhausted (create_deployment_with_retry env cfg m d).events = false ∧
      ∀ e, (create_deployment_with_retry env cfg m d).result = Except.error e →
        ∃ k nm, (create_deployment_with_retry env cfg m d).events.getLast?
            = some (RetryEv.attempt k nm) ∧ env.create k nm = Except.error e) := by
  constructor
  · intro env cfg m d
    obtain ⟨-, hex, -, -, -, -, -, ⟨k, nm, hlast, hsrc⟩, -⟩ :=
      endpointGo_master env m d cfg.name (m + 1) 0 cfg (by omega) (by omega)
    exact ⟨hex, fun e he => ⟨k, nm, hlast, hsrc e he⟩⟩
  · intro env cfg m d
    obtain ⟨-, hex, -, -, -, -, -, ⟨k, nm, hlast, hsrc⟩, -⟩ :=
      deploymentGo_master env m d cfg.name (m + 1) 0 cfg (by omega) (by omega)
    exact ⟨hex, fun e he => ⟨k, nm, hlast, hsrc e he⟩⟩

/-- Witness for C8 at a concrete fatal-error environment. -/
theorem C8_raise_carries_last_create_error_witness :
    hasExhausted (create_endpoint_with_cleanup_retry testEnvFatal testCfg 3 300).events
      = false ∧
    (∃ k nm, (create_endpoint_with_cleanup_retry testEnvFatal testCfg 3 300).events.getLast?
        = some (RetryEv.attempt k nm)
      ∧ testEnvFatal.create k nm = Except.error (("quota exceeded").toList)) ∧
    hasExhausted (create_deployment_with_retry testEnvFatal testCfg 2 180).events = false :=
  ⟨((@C8_raise_carries_last_create_error Nat Unit).1 testEnvFatal testCfg 3 300).1,
   ((@C8_raise_carries_last_create_error Nat Unit).1 testEnvFatal testCfg 3 300).2
      (("quota exceeded").toList) (by rfl),
   ((@C8_raise_carries_last_create_error Nat Unit).2 testEnvFatal testCfg 2 180).1⟩

/--
C9: retryable-versus-fatal classification depends only on the lower-cased
error message, so two error strings with the same lower-casing are classified
identically; in particular the upper-case message `TIMEOUT` is retryable for
both loops.
-/
theorem C9_classification_case_insensitive :
    (∀ e1 e2 : List Char, pyLower e1 = pyLower e2 →
      is_retryable_endpoint e1 = is_retryable_endpoint e2 ∧
      is_retryable_deployment e1 = is_retryable_deployment e2) ∧
    is_retryable_endpoint (("TIMEOUT").toList) = true ∧
    is_retryable_deployment (("TIMEOUT").toList) = true := by
  refine ⟨?_, by decide, by decide⟩
  intro e1 e2 h
  unfold is_retryable_endpoint is_retryable_deployment
  rw [h]
  exact ⟨rfl, rfl⟩

/-- Witness for C9: `TIMEOUT` and `timeout` are classified identically. -/
theorem C9_classification_case_insensitive_witness :
    is_retryable_endpoint (("TIMEOUT").toList) = is_retryable_endpoint (("timeout").toList) ∧
    is_retryable_deployment (("TIMEOUT").toList)
      = is_retryable_deployment (("timeout").toList) :=
  C9_classification_case_insensitive.1 (("TIMEOUT").toList) (("timeout").toList) (by decide)

/--
C7: the retry loops change nothing of the configuration except its `name`
field, and in a run with two retryable failures then a success (with
`max_retries = 3`) the success handle is returned and the configuration's
final name differs from the initial one.
-/
theorem C7_only_name_mutated_and_scenario {H A : Type} :
    (∀ (env : CloudEnv H) (cfg : ResourceConfig A) (m d : Nat),
      (create_endpoint_with_cleanup_retry env cfg m d).cfg.rest = cfg.rest ∧
      (create_deployment_with_retry env cfg m d).cfg.rest = cfg.rest) ∧
    (∀ (env : CloudEnv H) (cfg : ResourceConfig A) (d : Nat) (h : H) (e0 e1 : List Char),
      (∀ nm, env.create 0 nm = Except.error e0) → is_retryable_endpoint e0 = true →
      (∀ nm, env.create 1 nm = Except.error e1) → is_retryable_endpoint e1 = true →
      (∀ nm, env.create 2 nm = Except.ok h) →
      cfg.name.length + (endpointRetrySuffix env 1).length + 1 ≤ 32 →
      (create_endpoint_with_cleanup_retry env cfg 3 d).result = Except.ok h ∧
      (create_endpoint_with_cleanup_retry env cfg 3 d).cfg.name ≠ cfg.name) := by
  constructor
  · intro env cfg m d
    obtain ⟨-, -, -, -, -, -, hrest_e, -⟩ :=
      endpointGo_master env m d cfg.name (m + 1) 0 cfg (by omega) (by omega)
    obtain ⟨-, -, -, -, -, -, hrest_d, -⟩ :=
      deploymentGo_master env m d cfg.name (m + 1) 0 cfg (by omega) (by omega)
    exact ⟨hrest_e, hrest_d⟩
  · intro env cfg d h e0 e1 hc0 hr0 hc1 hr1 hc2 hfit
    have hcond0 : ¬(is_retryable_endpoint e0 = false ∨ 3 ≤ 0) := by
      rintro (hx | hx)
      · rw [hr0] at hx
        cases hx
      · omega
    have hcond1 : ¬(is_retryable_endpoint e1 = false ∨ 3 ≤ 1) := by
      rintro (hx | hx)
      · rw [hr1] at hx
        cases hx
      · omega
    have h0r : (create_endpoint_with_cleanup_retry env cfg 3 d).result = Except.ok h := by
      show (endpointGo env 3 d cfg.name (3 + 1) 0 cfg).result = _
      simp [endpointGo, hc0, hc1, hc2, hr0, hr1]
    have h0n : (create_endpoint_with_cleanup_retry env cfg 3 d).cfg.name
        = endpointRetryName env cfg.name 1 := by
      show (endpointGo env 3 d cfg.name (3 + 1) 0 cfg).cfg.name = _
      simp [endpointGo, hc0, hc1, hc2, hr0, hr1]
    refine ⟨h0r, ?_⟩
    rw [h0n, endpointRetryName, if_pos hfit]
    intro hx
    have hlen := congrArg List.length hx
    simp [dashL] at hlen

def testEnvThirdOk : CloudEnv Nat :=
  ⟨fun k _ => if k < 2 then Except.error (("timeout").toList) else Except.ok 7,
   fun _ => false, fun _ => 0,
   fun _ => ("0101-1234").toList, fun _ => ("abc123").toList, fun _ => ("ab12").toList⟩

/-- Witness for C7: two retryable failures then success with `max_retries = 3`. -/
theorem C7_only_name_mutated_and_scenario_witness :
    (create_endpoint_with_cleanup_retry testEnvThirdOk testCfg 3 300).result = Except.ok 7 ∧
    (create_endpoint_with_cleanup_retry testEnvThirdOk testCfg 3 300).cfg.name
      ≠ testCfg.name :=
  (@C7_only_name_mutated_and_scenario Nat Unit).2 testEnvThirdOk testCfg 300 7
    (("timeout").toList) (("timeout").toList)
    (fun nm => rfl) (by decide) (fun nm => rfl) (by decide) (fun nm => rfl) (by decide)

def cfgCollide : ResourceConfig Unit := ⟨("pp-retry-0101-1234-abc123").toList, ()⟩

/--
C7 counterexample: a run of `create_endpoint_with_cleanup_retry` with two
retryable failures then a success (`max_retries = 3`) whose final
configuration name *equals* the initial name: the 25-character initial name
makes the suffixed retry name overflow the 32-character budget, so the
fallback generator runs, and its timestamp/uuid draw regenerates exactly the
initial name.
-/
theorem C7_counterexample :
    (∀ nm, testEnvThirdOk.create 0 nm = Except.error (("timeout").toList)) ∧
    is_retryable_endpoint (("timeout").toList) = true ∧
    (∀ nm, testEnvThirdOk.create 1 nm = Except.error (("timeout").toList)) ∧
    (∀ nm, testEnvThirdOk.create 2 nm = Except.ok 7) ∧
    (create_endpoint_with_cleanup_retry testEnvThirdOk cfgCollide 3 300).result
      = Except.ok 7 ∧
    (create_endpoint_with_cleanup_retry testEnvThirdOk cfgCollide 3 300).cfg.name
      = cfgCollide.name := by
  refine ⟨fun nm => rfl, by decide, fun nm => rfl, fun nm => rfl, by rfl, by decide⟩
